import Mathlib

/-!
Verification of the Aura chat pipeline (duggal1/aura).

This file shallow-embeds the pieces of the repository that the claims
are about:

* `backend/app/llm_service.py` (present in the repository as compiled
  bytecode, reconstructed instruction-by-instruction): the prompt
  builder `create_dynamic_prompt`, the validator `validate_response`,
  the generation/validation loop `refine_and_respond` and the wrapper
  `generate_emotional_response`;
* the chat UI submit handler `handleSubmit` of `ChatInterface`
  (`src/components/ChatInterface.tsx`).

External collaborators (the Gemini generation API and the
`analyze_emotions` classifier) are modelled as oracles; Python's
`json.loads` is modelled by an executable JSON parser with Python's
strict-mode grammar; Python truthiness, `in` and subscription on
parsed JSON values are modelled by executable functions.  Strings are
modelled over their character lists; the Python/JS whitespace sets are
restricted to their ASCII part, which is the only part the claims
exercise.
-/

namespace Aura

/-! ### Characters and whitespace -/

/-- The double-quote character. -/
def quoteC : Char := Char.ofNat 34

/-- The backslash character. -/
def bslashC : Char := Char.ofNat 92

/-- The left curly bracket character. -/
def lbraceC : Char := Char.ofNat 123

/-- The right curly bracket character. -/
def rbraceC : Char := Char.ofNat 125

/-- The left square bracket character. -/
def lbrackC : Char := Char.ofNat 91

/-- The right square bracket character. -/
def rbrackC : Char := Char.ofNat 93

/-- The backtick character. -/
def btickC : Char := Char.ofNat 96

/-- Whitespace recognised by Python's `json` module: space, tab,
newline, carriage return. -/
def isJsonWs (c : Char) : Bool :=
  c == ' ' || c == Char.ofNat 9 || c == Char.ofNat 10 || c == Char.ofNat 13

/-- Whitespace stripped by Python's `str.strip()` and JS
`String.prototype.trim()` (ASCII part): space, tab, newline, vertical
tab, form feed, carriage return. -/
def isStripWs (c : Char) : Bool :=
  c == ' ' || c == Char.ofNat 9 || c == Char.ofNat 10 ||
  c == Char.ofNat 11 || c == Char.ofNat 12 || c == Char.ofNat 13

/-! ### Python / JS string primitives over character lists -/

/-- Python `str.strip()` / JS `trim()`: drop leading and trailing
whitespace. -/
def pyStripL (l : List Char) : List Char :=
  ((l.dropWhile isStripWs).reverse.dropWhile isStripWs).reverse

/-- Python `str.startswith(pre)`. -/
def pyStartsWith (l pre : List Char) : Bool :=
  pre.isPrefixOf l

/-- Python `str.endswith(suf)`, via the reversed lists. -/
def pyEndsWith (l suf : List Char) : Bool :=
  suf.reverse.isPrefixOf l.reverse

/-- Python `str.find(c)`: index of the first occurrence, `-1` when
absent. -/
def pyFind (l : List Char) (c : Char) : Int :=
  match l.findIdx? (· == c) with
  | some n => (n : Int)
  | none => -1

/-- Python `str.rfind(c)`: index of the last occurrence, `-1` when
absent. -/
def pyRFind (l : List Char) (c : Char) : Int :=
  match l.reverse.findIdx? (· == c) with
  | some n => ((l.length - 1 - n : Nat) : Int)
  | none => -1

/-- Python slice `l[a:b]` for non-negative bounds. -/
def pySlice (l : List Char) (a b : Int) : List Char :=
  (l.take b.toNat).drop a.toNat

/-- Python slice `l[a:-b]` (drop `a` from the front and `b` from the
back, clamping at empty). -/
def pySliceDropEnds (l : List Char) (a b : Nat) : List Char :=
  (l.take (l.length - b)).drop a

/-! ### JSON values and a model of Python `json.loads`

Numbers are carried as their source lexemes (the claims never compute
with numeric values, only compare parse results), and objects as
key/value lists in source order (Python's dict keeps the last
occurrence of a duplicate key; lookups below read the last match). -/

/-- A parsed JSON value. -/
inductive JValue where
  | null : JValue
  | bool (b : Bool) : JValue
  | num (lexeme : List Char) : JValue
  | str (s : List Char) : JValue
  | arr (elems : List JValue) : JValue
  | obj (fields : List (List Char × JValue)) : JValue

/-- Decode a simple escape character after a backslash. -/
def escChar (c : Char) : Option Char :=
  if c = quoteC then some quoteC
  else if c = bslashC then some bslashC
  else if c = '/' then some '/'
  else if c = 'b' then some (Char.ofNat 8)
  else if c = 'f' then some (Char.ofNat 12)
  else if c = 'n' then some (Char.ofNat 10)
  else if c = 'r' then some (Char.ofNat 13)
  else if c = 't' then some (Char.ofNat 9)
  else none

/-- Hexadecimal digit value. -/
def hexVal (c : Char) : Option Nat :=
  if c.isDigit then some (c.toNat - 48)
  else if 97 ≤ c.toNat ∧ c.toNat ≤ 102 then some (c.toNat - 87)
  else if 65 ≤ c.toNat ∧ c.toNat ≤ 70 then some (c.toNat - 55)
  else none

/-- Parse the body of a JSON string after the opening quote, decoding
escapes, rejecting raw control characters (Python strict mode), and
returning the decoded characters together with the rest of the
input. -/
def parseStrBody (fuel : Nat) (l : List Char) : Option (List Char × List Char) :=
  match fuel, l with
  | 0, _ => none
  | _ + 1, [] => none
  | fuel + 1, c :: t =>
    if c = quoteC then some ([], t)
    else if c = bslashC then
      match t with
      | [] => none
      | e :: t2 =>
        if e = 'u' then
          match t2 with
          | a :: b :: c2 :: d :: t3 =>
            match hexVal a, hexVal b, hexVal c2, hexVal d with
            | some ha, some hb, some hc, some hd =>
              (parseStrBody fuel t3).map
                (fun p => (Char.ofNat (((ha * 16 + hb) * 16 + hc) * 16 + hd) :: p.1, p.2))
            | _, _, _, _ => none
          | _ => none
        else
          match escChar e with
          | some ec => (parseStrBody fuel t2).map (fun p => (ec :: p.1, p.2))
          | none => none
    else if c.toNat < 32 then none
    else (parseStrBody fuel t).map (fun p => (c :: p.1, p.2))

/-- Parse a JSON number lexeme (`-?(0|[1-9]\d*)(\.\d+)?([eE][-+]?\d+)?`,
the regex used by Python's `json` scanner), returning the lexeme and
the rest. -/
def parseNumLex (l : List Char) : Option (List Char × List Char) :=
  let (sgn, l1) :=
    match l with
    | c :: t => if c = '-' then ([c], t) else (([] : List Char), l)
    | [] => (([] : List Char), l)
  match l1 with
  | [] => none
  | c :: t =>
    if c = '0' then
      let (frac, l2) := parseNumFrac t
      let (ex, l3) := parseNumExp l2
      some (sgn ++ [c] ++ frac ++ ex, l3)
    else if c.isDigit then
      let ds := t.takeWhile Char.isDigit
      let rest := t.dropWhile Char.isDigit
      let (frac, l2) := parseNumFrac rest
      let (ex, l3) := parseNumExp l2
      some (sgn ++ [c] ++ ds ++ frac ++ ex, l3)
    else none
where
  /-- Optional fraction part `(\.\d+)?`. -/
  parseNumFrac (l : List Char) : List Char × List Char :=
    match l with
    | c :: d :: t =>
      if c = '.' ∧ d.isDigit then
        ([c, d] ++ t.takeWhile Char.isDigit, t.dropWhile Char.isDigit)
      else ([], l)
    | _ => ([], l)
  /-- Optional exponent part `([eE][-+]?\d+)?`. -/
  parseNumExp (l : List Char) : List Char × List Char :=
    match l with
    | c :: d :: t =>
      if (c = 'e' ∨ c = 'E') ∧ d.isDigit then
        ([c, d] ++ t.takeWhile Char.isDigit, t.dropWhile Char.isDigit)
      else if (c = 'e' ∨ c = 'E') ∧ (d = '+' ∨ d = '-') then
        match t with
        | e :: t2 =>
          if e.isDigit then
            ([c, d, e] ++ t2.takeWhile Char.isDigit, t2.dropWhile Char.isDigit)
          else ([], l)
        | [] => ([], l)
      else ([], l)
    | _ => ([], l)

/-- Drop leading JSON whitespace. -/
def skipWs (l : List Char) : List Char := l.dropWhile isJsonWs

mutual

/-- Parse one JSON value from the front of the input. -/
def parseValue : Nat → List Char → Option (JValue × List Char)
  | 0, _ => none
  | _ + 1, [] => none
  | fuel + 1, c :: t =>
    if c = quoteC then
      (parseStrBody (t.length + 1) t).map (fun p => (JValue.str p.1, p.2))
    else if c = lbraceC then parseObjOpen fuel (skipWs t)
    else if c = lbrackC then parseArrOpen fuel (skipWs t)
    else if c = 't' then
      if ['r', 'u', 'e'].isPrefixOf t then some (JValue.bool true, t.drop 3) else none
    else if c = 'f' then
      if ['a', 'l', 's', 'e'].isPrefixOf t then some (JValue.bool false, t.drop 4) else none
    else if c = 'n' then
      if ['u', 'l', 'l'].isPrefixOf t then some (JValue.null, t.drop 3) else none
    else if c = '-' ∨ c.isDigit then
      (parseNumLex (c :: t)).map (fun p => (JValue.num p.1, p.2))
    else none

/-- After an opening brace (whitespace skipped): empty object or first
member. -/
def parseObjOpen : Nat → List Char → Option (JValue × List Char)
  | 0, _ => none
  | _ + 1, [] => none
  | fuel + 1, c :: t =>
    if c = rbraceC then some (JValue.obj [], t)
    else parseObjMember fuel (c :: t) []

/-- Parse one `"key": value` member and continue on `,` or close on
the closing brace. -/
def parseObjMember : Nat → List Char → List (List Char × JValue) → Option (JValue × List Char)
  | 0, _, _ => none
  | _ + 1, [], _ => none
  | fuel + 1, c :: t, acc =>
    if c = quoteC then
      match parseStrBody (t.length + 1) t with
      | none => none
      | some (key, r1) =>
        match skipWs r1 with
        | c2 :: r2 =>
          if c2 = ':' then
            match parseValue fuel (skipWs r2) with
            | none => none
            | some (v, r3) =>
              match skipWs r3 with
              | c3 :: r4 =>
                if c3 = rbraceC then some (JValue.obj (acc ++ [(key, v)]), r4)
                else if c3 = ',' then parseObjMember fuel (skipWs r4) (acc ++ [(key, v)])
                else none
              | [] => none
          else none
        | [] => none
    else none

/-- After an opening square bracket (whitespace skipped): empty array
or first element. -/
def parseArrOpen : Nat → List Char → Option (JValue × List Char)
  | 0, _ => none
  | _ + 1, [] => none
  | fuel + 1, c :: t =>
    if c = rbrackC then some (JValue.arr [], t)
    else parseArrElem fuel (c :: t) []

/-- Parse one element and continue on `,` or close on `]`. -/
def parseArrElem : Nat → List Char → List JValue → Option (JValue × List Char)
  | 0, _, _ => none
  | _ + 1, [], _ => none
  | fuel + 1, c :: t, acc =>
    match parseValue fuel (c :: t) with
    | none => none
    | some (v, r1) =>
      match skipWs r1 with
      | c2 :: r2 =>
        if c2 = rbrackC then some (JValue.arr (acc ++ [v]), r2)
        else if c2 = ',' then parseArrElem fuel (skipWs r2) (acc ++ [v])
        else none
      | [] => none

end

/-- Model of Python `json.loads`: parse a full document, allowing only
whitespace around the single top-level value; `none` models a raised
`json.JSONDecodeError`. -/
def jsonLoads (l : List Char) : Option JValue :=
  match parseValue (l.length + 4) (skipWs l) with
  | some (v, rest) => if skipWs rest = [] then some v else none
  | none => none

/-! ### Python dynamic semantics on parsed JSON values -/

/-- Python truthiness of a parsed JSON value (`not data`): `None`,
`False`, numeric zero, empty string, empty list and empty dict are
falsy. -/
def pyTruthy : JValue → Bool
  | .null => false
  | .bool b => b
  | .num lx =>
    ¬ ((lx.takeWhile (fun c => ¬ (c = 'e' ∨ c = 'E'))).filter Char.isDigit).all (· = '0')
  | .str s => s ≠ []
  | .arr es => ¬ es.isEmpty
  | .obj fs => ¬ fs.isEmpty

/-- Python `key in data` for a string key: key membership on dicts,
element equality on lists, substring test on strings, `TypeError`
(modelled as `Except.error`) on the other types. -/
def pyContainsKey (d : JValue) (key : List Char) : Except Unit Bool :=
  match d with
  | .obj fs => .ok (fs.any (fun kv => kv.1 = key))
  | .arr es =>
    .ok (es.any (fun e => match e with | .str s => s = key | _ => false))
  | .str s =>
    .ok ((List.range (s.length + 1)).any (fun i => key.isPrefixOf (s.drop i)))
  | _ => .error ()

/-- Python `data[key]` for a string key: dict lookup (last duplicate
wins, `KeyError` when absent), `TypeError` on every other type. -/
def pySubscript (d : JValue) (key : List Char) : Except Unit JValue :=
  match d with
  | .obj fs =>
    match fs.reverse.find? (fun kv => kv.1 = key) with
    | some kv => .ok kv.2
    | none => .error ()
  | _ => .error ()

/-- Python `data.get(key, default)` on a dict (the only receiver the
code reaches it with). -/
def pyDictGet (fs : List (List Char × JValue)) (key : List Char) (dflt : JValue) : JValue :=
  match fs.reverse.find? (fun kv => kv.1 = key) with
  | some kv => kv.2
  | none => dflt

/-! ### llm_service.py: fence stripping, parse-and-salvage, fallback -/

/-- The characters of the fence opener `` ```json ``. -/
def fenceJson : List Char := "```json".data

/-- The characters of the bare fence ` ``` `. -/
def fence3 : List Char := "```".data

/-- The `response` key. -/
def respKey : List Char := "response".data

/-- Fence stripping from `refine_and_respond`:
`raw[7:-3].strip()` when wrapped in `` ```json …``` ``, else
`raw[3:-3].strip()` when wrapped in bare fences, else unchanged. -/
def fenceStage (raw : List Char) : List Char :=
  if pyStartsWith raw fenceJson ∧ pyEndsWith raw fence3 then
    pyStripL (pySliceDropEnds raw 7 3)
  else if pyStartsWith raw fence3 ∧ pyEndsWith raw fence3 then
    pyStripL (pySliceDropEnds raw 3 3)
  else raw

/-- Outcome of the strict-then-salvage parse: a value, or an exception
escaping to the attempt's outer `except` handler. -/
inductive ParseOut where
  | ok (v : JValue) : ParseOut
  | raised : ParseOut

/-- The strict parse and the salvage pass of `refine_and_respond`:
`json.loads(raw)`; on `JSONDecodeError`, `start, end = raw.find('{'),
raw.rfind('}')`; when `start >= 0 and end >= 0` re-parse
`raw[start:end+1]` (a second `JSONDecodeError` escapes the handler),
otherwise `data = {}`. -/
def parseStage (raw : List Char) : ParseOut :=
  match jsonLoads raw with
  | some v => .ok v
  | none =>
    let s := pyFind raw lbraceC
    let e := pyRFind raw rbraceC
    if 0 ≤ s ∧ 0 ≤ e then
      match jsonLoads (pySlice raw s (e + 1)) with
      | some v => .ok v
      | none => .raised
    else .ok (.obj [])

/-- The canned fallback response text substituted inside the loop and
returned after exhaustion (with the source's typographic apostrophes
and em dash). -/
def charlotteMind : List Char :=
  "Hey, I’m Charlotte, your therapist. Thanks for sharing—what’s on your mind today?".data

/-- The canned response text used by `generate_emotional_response`,
both as the `.get` default and in its `except` handler. -/
def charlotteGoingOn : List Char :=
  "Hey, I’m Charlotte, your therapist. Thanks for sharing—what’s going on for you right now?".data

/-- The fixed fallback reply dict
`\x7b"appraisal": "Challenge", "regulation": [], "response": …\x7d`. -/
def fallbackData : JValue :=
  .obj [("appraisal".data, .str "Challenge".data),
        ("regulation".data, .arr []),
        (respKey, .str charlotteMind)]

/-- The `if not data or 'response' not in data` substitution step: the
fallback reply replaces a falsy value or one without a `response`
member; a `TypeError` from the membership test escapes to the
attempt's handler. -/
def substStep (data : JValue) : Except Unit JValue :=
  if pyTruthy data = false then .ok fallbackData
  else
    match pyContainsKey data respKey with
    | .error e => .error e
    | .ok true => .ok data
    | .ok false => .ok fallbackData

/-! ### llm_service.py: the response validator -/

/-- Events emitted through the logger, as far as the claims mention
them. -/
inductive LogEvent where
  | validationError : LogEvent
  | validationMismatch : LogEvent
  | validationRetry : LogEvent
  | llmCallFailed : LogEvent
  | maxAttemptsReached : LogEvent
deriving DecidableEq

/-- The permissive label set accepted for a neutral expectation. -/
def permissiveEmotions : List String :=
  ["neutral", "happy", "surprised", "curious"]

/-- `validate_response(response, expected_emotion)`: re-classify the
response text through `analyze_emotions` (modelled by the `reclassify`
oracle; `none` models the classifier raising), then pass on the
permissive rule or on label equality, fail with a warning otherwise;
the `except Exception` handler logs the error and returns `True`.  The
source's `analysis and` conjunct is dropped: the classifier result
object is always truthy. -/
def validate_response (reclassify : List Char → Option String)
    (response : List Char) (expected_emotion : String) : Bool × List LogEvent :=
  match reclassify response with
  | none => (true, [.validationError])
  | some primary =>
    if expected_emotion = "neutral" ∧ permissiveEmotions.contains primary then
      (true, [])
    else if primary = expected_emotion then (true, [])
    else (false, [.validationMismatch])

/-! ### llm_service.py: the generation / validation loop -/

/-- The loop ceiling `max_attempts = 3` of `refine_and_respond`. -/
def maxAttempts : Nat := 3

/-- The external world seen by one execution of
`refine_and_respond`: the generation API per attempt index (`none`
models a transport/API exception, `some raw` the returned text), and
the re-classification oracle used by the validator. -/
structure RefineEnv where
  api : Nat → Option String
  reclassify : List Char → Option String

/-- Outcome of one loop attempt: a validated reply, a validation
failure (retry), or an exception reaching the attempt's `except`
handler. -/
inductive StepOut where
  | pass (data : JValue) : StepOut
  | failv : StepOut
  | exc : StepOut

/-- One attempt of the loop body: call the API, strip and strip
fences, parse with salvage, substitute the fallback reply, subscript
`data['response']` and validate it.  A non-string `response` value
makes `analyze_emotions` raise inside the validator, which its
catch-all converts to acceptance. -/
def stepRun (env : RefineEnv) (expected : String) (k : Nat) : StepOut :=
  match env.api k with
  | none => .exc
  | some text =>
    match parseStage (fenceStage (pyStripL text.data)) with
    | .raised => .exc
    | .ok data0 =>
      match substStep data0 with
      | .error _ => .exc
      | .ok data =>
        match pySubscript data respKey with
        | .error _ => .exc
        | .ok rv =>
          let vres :=
            match rv with
            | .str s => validate_response env.reclassify s expected
            | _ => (true, [LogEvent.validationError])
          if vres.1 then .pass data else .failv

/-- Result of `refine_and_respond`: a reply dict, or an exception
propagating to the caller. -/
inductive RefineOut where
  | success (data : JValue) : RefineOut
  | raise : RefineOut

/-- The `for attempt in range(1, max_attempts + 1)` loop: return on
the first validated reply; on an exception re-raise only from the
final attempt; when the loop exhausts, log the degradation and return
the fixed fallback reply.  Returns the result, the number of attempts
performed, and the log. -/
def refineLoopFrom (env : RefineEnv) (expected : String) :
    Nat → Nat → RefineOut × Nat × List LogEvent
  | _, 0 => (.success fallbackData, 0, [.maxAttemptsReached])
  | k, r + 1 =>
    match stepRun env expected k with
    | .pass d => (.success d, 1, [])
    | .failv =>
      let next := refineLoopFrom env expected (k + 1) r
      (next.1, next.2.1 + 1, LogEvent.validationRetry :: next.2.2)
    | .exc =>
      if r = 0 then (.raise, 1, [.llmCallFailed])
      else
        let next := refineLoopFrom env expected (k + 1) r
        (next.1, next.2.1 + 1, LogEvent.llmCallFailed :: next.2.2)

/-- `refine_and_respond` (its loop, with prompt construction and the
generation config folded into the API oracle). -/
def refine_and_respond (env : RefineEnv) (expected : String) :
    RefineOut × Nat × List LogEvent :=
  refineLoopFrom env expected 1 maxAttempts

/-! ### llm_service.py: generate_emotional_response -/

/-- Modelled from the spec: the `retry_async` decorator lives in the
backend `utils` module, which is not present under `src/`; per the
spec it applies bounded exponential-backoff retry (fixed delay
multiplier) up to a fixed number of invocations, re-raising after the
final failure.  Delays do not affect values, so it is modelled as pure
re-invocation with a per-try environment.  Its ceiling at this call
site is `times=4` (the module's decorator call constant). -/
def retryTimes : Nat := 4

/-- Modelled from the spec: run `refine_and_respond` under
`retry_async`, re-invoking on an exception up to the ceiling and
propagating the final exception. -/
def retryAsyncFrom (envs : Nat → RefineEnv) (expected : String) :
    Nat → Nat → RefineOut
  | _, 0 => .raise
  | t, r + 1 =>
    match (refine_and_respond (envs t) expected).1 with
    | .success d => .success d
    | .raise => retryAsyncFrom envs expected (t + 1) r

/-- `generate_emotional_response`: call the retrying generator; on a
dict reply return `result.get('response', canned)`; any exception is
caught, logged, and converted into the canned reply.  (A non-dict
result would make `.get` raise, which the same handler also converts;
the loop in fact only returns dicts.) -/
def generate_emotional_response (envs : Nat → RefineEnv) (expected : String) : JValue :=
  match retryAsyncFrom envs expected 1 retryTimes with
  | .success data =>
    match data with
    | .obj fs => pyDictGet fs respKey (.str charlotteGoingOn)
    | _ => .str charlotteGoingOn
  | .raise => .str charlotteGoingOn

/-! ### llm_service.py: create_dynamic_prompt -/

/-- One entry of `secondary_emotions`; the score is carried as its
`.2f` rendering, since only its textual substitution occurs here. -/
structure SecondaryEmotion where
  label : String
  scoreRepr : String

/-- The analysis result consumed by the prompt builder; `intensity` is
carried as its rendering for the same reason. -/
structure EmotionAnalysisResult where
  primary_emotion : String
  intensityRepr : String
  secondary_emotions : List SecondaryEmotion

/-- The sentinel substituted for an empty conversation context. -/
def noPriorSentinel : String := "No prior conversation."

/-- The fixed template text before the primary-emotion substitution. -/
def promptRole : String :=
  "**Role:** You are Charlotte, a professional, empathetic human therapist with years of experience. Respond as a warm, understanding person would in a therapy session, avoiding any AI-like or robotic language.\n**User State:** Primary emotion: "

/-- The fixed instruction block closing the template. -/
def promptInstructions : String :=
  "\n**Instructions:**\n- Respond in 2-4 sentences with a natural, conversational tone, mirroring the user\x27s emotional tone and intensity as a therapist would.\n- If the user\x27s message is a question, directly address it in a warm, personal way before offering any therapeutic insights.\n- For low-intensity (<5/10) or neutral emotions, keep responses light, casual, and engaging, avoiding therapeutic suggestions unless prompted.\n- For ambiguous, short, or question-based inputs, assume a neutral or curious tone unless context strongly suggests otherwise.\n- Use Lazarus\x27 Appraisal Theory to classify the situation as \x27Threat\x27 or \x27Challenge\x27 and weave this subtly into your tone (e.g., \x27Challenge\x27 feels hopeful, \x27Threat\x27 feels protective), but only for moderate-to-high intensity (>5/10).\n- Suggest 1-2 practical emotion regulation strategies (e.g., deep breathing, reframing, grounding exercises) only for moderate-to-high intensity emotions (>5/10); otherwise, focus on connection and curiosity.\n- Ensure the response feels personal, logical, and aligned with the detected emotion and context, avoiding generic phrases.\n- End with a warm, open-ended follow-up question to invite further sharing, like a therapist would.\n- Output a JSON object with fields: appraisal (\x27Threat\x27 or \x27Challenge\x27), regulation (array of 1-2 strings, empty for low-intensity), response (string).\nExample for casual question: \x27Hey, you asked how I’m doing—thanks for that! I’m feeling good, just enjoying the moment. What about you, how’s your day going?\x27\nExample for intense emotion: \x27I hear how tough this is for you right now, and I’m here to help. Let’s try a slow breath together to ease that tension. What’s been the hardest part of this for you?\x27"

/-- `create_dynamic_prompt(emotions, user_text, context)`: the pure
template instantiation; `context_str` is `" ".join(context[-3:])`, or
the sentinel when the context is empty. -/
def create_dynamic_prompt (emotions : EmotionAnalysisResult)
    (user_text : String) (context : List String) : String :=
  let emotion := emotions.primary_emotion
  let intensity := emotions.intensityRepr
  let context_str :=
    if context.isEmpty then noPriorSentinel
    else String.intercalate " " (context.drop (context.length - 3))
  promptRole ++ emotion
    ++ " (intensity: " ++ intensity ++ "/10). Secondary emotions: "
    ++ String.intercalate ", "
        (emotions.secondary_emotions.map (fun e => e.label ++ " (" ++ e.scoreRepr ++ ")"))
    ++ ".\n**Context:** " ++ context_str
    ++ "\n**Current Message:** " ++ user_text
    ++ promptInstructions

/-! ### ChatInterface.tsx: handleSubmit -/

/-- Message sender tags of the chat UI. -/
inductive Sender where
  | user : Sender
  | ai : Sender
  | sys : Sender
deriving DecidableEq

/-- One rendered chat message. -/
structure ChatMessage where
  id : String
  sender : Sender
  text : String
  timestamp : Nat
deriving DecidableEq

/-- The component state touched by `handleSubmit`. -/
structure ChatState where
  messages : List ChatMessage
  inputValue : String
  isLoading : Bool
  error : Option String
deriving DecidableEq

/-- The body of the `POST /chat` request. -/
structure ChatRequest where
  message : String
deriving DecidableEq

/-- JS `String.prototype.trim()` (ASCII whitespace part). -/
def jsTrim (s : String) : String := String.mk (pyStripL s.data)

/-- The phase of `handleSubmit` up to issuing the HTTP request: trim
the input; bail out when the trimmed text is empty or a request is in
flight; otherwise append the user message, clear the input, set
loading, clear the error, and issue `POST /chat` with
`\x7b message: text \x7d`. -/
def handleSubmit (s : ChatState) (now : Nat) : ChatState × Option ChatRequest :=
  let text := jsTrim s.inputValue
  if text = "" ∨ s.isLoading then (s, none)
  else
    ({ messages := s.messages ++
        [{ id := "user-" ++ toString now, sender := .user, text := text, timestamp := now }],
       inputValue := "", isLoading := true, error := none },
     some { message := text })

/-! ### Support lemmas about whitespace and stripping -/

/-- JSON whitespace is also `strip` whitespace. -/
theorem jsonWs_strip {c : Char} (h : isJsonWs c = true) : isStripWs c = true := by
  simp only [isJsonWs, Bool.or_eq_true, beq_iff_eq] at h
  rcases h with ((h | h) | h) | h <;> subst h <;> decide

/-- Dropping a longer whitespace class agrees with dropping a shorter
one when the first survivor of the shorter drop is not in the longer
class. -/
theorem dropWhile_agree {p q : Char → Bool} (hpq : ∀ c, p c = true → q c = true)
    {l : List Char} {c : Char} {t : List Char}
    (h : l.dropWhile p = c :: t) (hc : q c = false) :
    l.dropWhile q = c :: t := by
  induction l with
  | nil => simp at h
  | cons a s ih =>
    by_cases ha : p a = true
    · rw [List.dropWhile_cons, if_pos ha] at h
      rw [List.dropWhile_cons, if_pos (hpq a ha)]
      exact ih h
    · rw [List.dropWhile_cons, if_neg ha] at h
      obtain ⟨rfl, rfl⟩ := by simpa using h
      rw [List.dropWhile_cons, if_neg (by simp [hc])]

/-- `dropWhile` over an appended non-droppable last element. -/
theorem dropWhile_append_last {p : Char → Bool} (xs : List Char) {c : Char}
    (hc : p c = false) :
    (xs ++ [c]).dropWhile p = xs.dropWhile p ++ [c] := by
  rw [List.dropWhile_append]
  split
  · next he =>
    rw [List.isEmpty_iff] at he
    rw [he]
    simp [List.dropWhile_cons, hc]
  · rfl

/-- Stripping keeps a non-whitespace head. -/
theorem pyStripL_cons_head {c : Char} (t : List Char) (hc : isStripWs c = false) :
    ∃ t', pyStripL (c :: t) = c :: t' := by
  unfold pyStripL
  rw [List.dropWhile_cons, if_neg (by simp [hc])]
  rw [show (c :: t).reverse = t.reverse ++ [c] by simp]
  rw [dropWhile_append_last _ hc]
  exact ⟨(t.reverse.dropWhile isStripWs).reverse, by simp⟩

/-- The survivor at the head of a `dropWhile` fails the predicate. -/
theorem dropWhile_head_false {p : Char → Bool} {l : List Char} {c : Char} {t : List Char}
    (h : l.dropWhile p = c :: t) : p c = false := by
  induction l with
  | nil => simp at h
  | cons a s ih =>
    rw [List.dropWhile_cons] at h
    split at h
    · exact ih h
    · next ha =>
      obtain ⟨rfl, rfl⟩ := by simpa using h
      simpa using ha

/-- `dropWhile` is idempotent. -/
theorem dropWhile_idem (p : Char → Bool) (l : List Char) :
    (l.dropWhile p).dropWhile p = l.dropWhile p := by
  cases h : l.dropWhile p with
  | nil => rfl
  | cons c t => rw [List.dropWhile_cons, if_neg (by simp [dropWhile_head_false h])]

/-- Trailing-whitespace trimming. -/
def trimEndWs (l : List Char) : List Char :=
  (l.reverse.dropWhile isStripWs).reverse

/-- `pyStripL` is leading then trailing trimming. -/
theorem pyStripL_eq (l : List Char) :
    pyStripL l = trimEndWs (l.dropWhile isStripWs) := rfl

/-- Trailing trimming keeps a non-whitespace head. -/
theorem trimEndWs_cons {c : Char} (t : List Char) (hc : isStripWs c = false) :
    trimEndWs (c :: t) = c :: (t.reverse.dropWhile isStripWs).reverse := by
  unfold trimEndWs
  rw [show (c :: t).reverse = t.reverse ++ [c] by simp]
  rw [dropWhile_append_last _ hc]
  simp

/-- A list whose first and last characters are not whitespace strips
to itself. -/
theorem pyStripL_id {l : List Char}
    (h1 : ∀ c, l.head? = some c → isStripWs c = false)
    (h2 : ∀ c, l.getLast? = some c → isStripWs c = false) :
    pyStripL l = l := by
  cases l with
  | nil => rfl
  | cons a s =>
    have ha : isStripWs a = false := h1 a rfl
    rw [pyStripL_eq, List.dropWhile_cons, if_neg (by simp [ha])]
    cases hr : (a :: s).reverse with
    | nil => simp at hr
    | cons b u =>
      have hb : isStripWs b = false :=
        h2 b (by rw [← List.head?_reverse, hr]; rfl)
      unfold trimEndWs
      rw [hr, List.dropWhile_cons, if_neg (by simp [hb]), ← hr, List.reverse_reverse]

/-- Trailing trimming is idempotent. -/
theorem trimEndWs_idem (l : List Char) : trimEndWs (trimEndWs l) = trimEndWs l := by
  unfold trimEndWs
  rw [List.reverse_reverse, dropWhile_idem]

/-- Leading trimming is inert after a strip. -/
theorem dropWhile_trimEndWs {l : List Char} :
    (trimEndWs (l.dropWhile isStripWs)).dropWhile isStripWs
      = trimEndWs (l.dropWhile isStripWs) := by
  cases h : l.dropWhile isStripWs with
  | nil => rfl
  | cons c t =>
    rw [trimEndWs_cons t (dropWhile_head_false h)]
    rw [List.dropWhile_cons, if_neg (by simp [dropWhile_head_false h])]

/-- Stripping is idempotent. -/
theorem pyStripL_idem (l : List Char) : pyStripL (pyStripL l) = pyStripL l := by
  rw [pyStripL_eq, pyStripL_eq, dropWhile_trimEndWs, trimEndWs_idem]

/-! ### Support lemmas about the parser's dispatch -/

/-- The characters that can open a JSON value. -/
def isValueStart (c : Char) : Bool :=
  c = quoteC ∨ c = lbraceC ∨ c = lbrackC ∨ c = 't' ∨ c = 'f' ∨ c = 'n' ∨
    c = '-' ∨ c.isDigit

/-- A successful `parseValue` starts at a value-start character. -/
theorem parseValue_head {fuel : Nat} {l : List Char} {x : JValue × List Char}
    (h : parseValue fuel l = some x) :
    ∃ c t, l = c :: t ∧ isValueStart c = true := by
  match fuel, l with
  | 0, _ => simp [parseValue] at h
  | _ + 1, [] => simp [parseValue] at h
  | fuel + 1, c :: t =>
    refine ⟨c, t, rfl, ?_⟩
    unfold parseValue at h
    split_ifs at h <;> simp_all [isValueStart]

/-- A successful `jsonLoads` has a value-start character after the
leading whitespace. -/
theorem jsonLoads_head {l : List Char} {v : JValue} (h : jsonLoads l = some v) :
    ∃ c t, skipWs l = c :: t ∧ isValueStart c = true := by
  unfold jsonLoads at h
  cases hp : parseValue (l.length + 4) (skipWs l) with
  | none => rw [hp] at h; simp at h
  | some x => exact parseValue_head hp

/-- Whitespace dropped by `strip()` never starts a JSON value. -/
theorem stripWs_not_valueStart {c : Char} (h : isStripWs c = true) :
    isValueStart c = false := by
  simp only [isStripWs, Bool.or_eq_true, beq_iff_eq] at h
  rcases h with ((((h | h) | h) | h) | h) | h <;> subst h <;> decide

/-- A value-start character survives `strip()`. -/
theorem valueStart_not_stripWs {c : Char} (h : isValueStart c = true) :
    isStripWs c = false := by
  cases hs : isStripWs c with
  | false => rfl
  | true => rw [stripWs_not_valueStart hs] at h; exact absurd h (by simp)

/-- JSON whitespace never starts a JSON value. -/
theorem jsonWs_not_valueStart {c : Char} (h : isJsonWs c = true) :
    isValueStart c = false :=
  stripWs_not_valueStart (jsonWs_strip h)

/-- The backtick is not a value-start character. -/
theorem valueStart_ne_btick {c : Char} (h : isValueStart c = true) : c ≠ btickC := by
  intro hc; subst hc; exact absurd h (by decide)

/-- After a successful parse, stripping the document keeps the same
value-start head. -/
theorem pyStripL_head_of_loads {l : List Char} {v : JValue} (h : jsonLoads l = some v) :
    ∃ c t, pyStripL l = c :: t ∧ isValueStart c = true := by
  obtain ⟨c, t, hskip, hc⟩ := jsonLoads_head h
  have hdrop : l.dropWhile isStripWs = c :: t :=
    dropWhile_agree (fun d hd => jsonWs_strip hd) hskip (valueStart_not_stripWs hc)
  rw [pyStripL_eq, hdrop, trimEndWs_cons t (valueStart_not_stripWs hc)]
  exact ⟨c, (t.reverse.dropWhile isStripWs).reverse, rfl, hc⟩

/-! ### Support lemmas about fence stripping -/

/-- The fence literals as cons chains. -/
theorem fenceJson_eq : fenceJson = btickC :: btickC :: btickC :: 'j' :: 's' :: 'o' :: 'n' :: [] := by
  decide

/-- The bare fence as a cons chain. -/
theorem fence3_eq : fence3 = btickC :: btickC :: btickC :: [] := by
  decide

/-- A list starting with a non-backtick character does not match the
json fence opener. -/
theorem startsWith_fenceJson_false {c : Char} (t : List Char) (hc : c ≠ btickC) :
    pyStartsWith (c :: t) fenceJson = false := by
  have hb : (btickC == c) = false := by
    simp only [beq_eq_false_iff_ne, ne_eq]
    exact fun h => hc h.symm
  unfold pyStartsWith
  rw [fenceJson_eq]
  simp [List.isPrefixOf, hb]

/-- A list starting with a non-backtick character does not match the
bare fence opener. -/
theorem startsWith_fence3_false {c : Char} (t : List Char) (hc : c ≠ btickC) :
    pyStartsWith (c :: t) fence3 = false := by
  have hb : (btickC == c) = false := by
    simp only [beq_eq_false_iff_ne, ne_eq]
    exact fun h => hc h.symm
  unfold pyStartsWith
  rw [fence3_eq]
  simp [List.isPrefixOf, hb]

/-- Fence stripping is the identity on input with a non-backtick
head. -/
theorem fenceStage_id {c : Char} (t : List Char) (hc : c ≠ btickC) :
    fenceStage (c :: t) = c :: t := by
  unfold fenceStage
  rw [if_neg, if_neg]
  · intro h
    rw [startsWith_fence3_false t hc] at h
    exact absurd h.1 (by simp)
  · intro h
    rw [startsWith_fenceJson_false t hc] at h
    exact absurd h.1 (by simp)

/-- A list is a prefix of itself followed by anything. -/
theorem isPrefixOf_append_self (l m : List Char) : l.isPrefixOf (l ++ m) = true := by
  rw [List.isPrefixOf_iff_prefix]
  exact List.prefix_append l m

/-- The wrapped text starts with the json fence opener. -/
theorem startsWith_wrap1 (jd : List Char) :
    pyStartsWith (fenceJson ++ jd ++ fence3) fenceJson = true := by
  unfold pyStartsWith
  rw [List.append_assoc]
  exact isPrefixOf_append_self fenceJson (jd ++ fence3)

/-- The bare-fence-wrapped text starts with the bare fence opener. -/
theorem startsWith_wrap2 (jd : List Char) :
    pyStartsWith (fence3 ++ jd ++ fence3) fence3 = true := by
  unfold pyStartsWith
  rw [List.append_assoc]
  exact isPrefixOf_append_self fence3 (jd ++ fence3)

/-- Text ending in the bare fence satisfies `endswith`. -/
theorem endsWith_fence3 (l : List Char) :
    pyEndsWith (l ++ fence3) fence3 = true := by
  unfold pyEndsWith
  rw [List.reverse_append]
  exact isPrefixOf_append_self fence3.reverse l.reverse

/-- Slicing `[7:-3]` recovers the body of a json-fence wrap. -/
theorem slice_wrap1 (jd : List Char) :
    pySliceDropEnds (fenceJson ++ jd ++ fence3) 7 3 = jd := by
  unfold pySliceDropEnds
  have h1 : (fenceJson ++ jd ++ fence3).length - 3 = fenceJson.length + jd.length := by
    simp [fenceJson, fence3]
    omega
  have h7 : (7 : Nat) = fenceJson.length := rfl
  rw [h1, List.append_assoc, List.take_append_eq_append_take,
    List.take_of_length_le (Nat.le_add_right _ _), Nat.add_sub_cancel_left,
    List.take_left, h7, List.drop_left]

/-- Slicing `[3:-3]` recovers the body of a bare-fence wrap. -/
theorem slice_wrap2 (jd : List Char) :
    pySliceDropEnds (fence3 ++ jd ++ fence3) 3 3 = jd := by
  unfold pySliceDropEnds
  have h1 : (fence3 ++ jd ++ fence3).length - 3 = fence3.length + jd.length := by
    simp [fence3]
    omega
  have h3 : (3 : Nat) = fence3.length := rfl
  rw [h1, List.append_assoc, List.take_append_eq_append_take,
    List.take_of_length_le (Nat.le_add_right _ _), Nat.add_sub_cancel_left,
    List.take_left, h3, List.drop_left]

/-- A fence-wrapped document strips to itself: backticks guard both
ends. -/
theorem pyStripL_wrap_id (opener jd : List Char) (hop : opener.head? = some btickC)
    (hne : opener ≠ []) :
    pyStripL (opener ++ jd ++ fence3) = opener ++ jd ++ fence3 := by
  apply pyStripL_id
  · intro c hcn
    cases opener with
    | nil => exact absurd rfl hne
    | cons a s =>
      have ha : a = btickC := by simpa using hop
      subst ha
      have hcb : c = btickC := by
        have := hcn
        simp only [List.cons_append, List.head?_cons, Option.some.injEq] at this
        exact this.symm
      subst hcb
      decide
  · intro c hc
    rw [List.append_assoc, List.getLast?_append] at hc
    have h3 : (jd ++ fence3).getLast? = some btickC := by
      rw [List.getLast?_append]
      rfl
    rw [h3] at hc
    have hcb : c = btickC := (by simpa using hc : btickC = c).symm
    subst hcb
    decide

/-- JSON whitespace is never the letter `j`. -/
theorem jsonWs_ne_j {c : Char} (h : isJsonWs c = true) : c ≠ 'j' := by
  simp only [isJsonWs, Bool.or_eq_true, beq_iff_eq] at h
  rcases h with ((h | h) | h) | h <;> subst h <;> decide

/-- A value-start character is never the letter `j`. -/
theorem valueStart_ne_j {c : Char} (h : isValueStart c = true) : c ≠ 'j' := by
  intro hc; subst hc; exact absurd h (by decide)

/-- The head of a loadable document is JSON whitespace or a
value-start character. -/
theorem loads_head_class {l : List Char} {v : JValue} (h : jsonLoads l = some v)
    {c : Char} (hc : l.head? = some c) :
    isJsonWs c = true ∨ isValueStart c = true := by
  obtain ⟨c0, t0, hskip, hvs⟩ := jsonLoads_head h
  cases htw : l.takeWhile isJsonWs with
  | nil =>
    have hl : l = c0 :: t0 := by
      conv_lhs => rw [← List.takeWhile_append_dropWhile isJsonWs l]
      rw [htw, List.nil_append]
      exact hskip
    right
    rw [hl] at hc
    obtain rfl : c0 = c := by simpa using hc
    exact hvs
  | cons w ws =>
    have hl : l = (w :: ws) ++ l.dropWhile isJsonWs := by
      conv_lhs => rw [← List.takeWhile_append_dropWhile isJsonWs l]
      rw [htw]
    left
    rw [hl] at hc
    obtain rfl : w = c := by simpa using hc
    exact List.mem_takeWhile_imp (htw ▸ List.mem_cons_self w ws)

/-- A loadable body never makes the bare-fence wrap match the json
fence opener. -/
theorem wrap2_not_fenceJson {jd : List Char} {v : JValue} (h : jsonLoads jd = some v) :
    pyStartsWith (fence3 ++ jd ++ fence3) fenceJson = false := by
  unfold pyStartsWith
  have hfj : fenceJson = fence3 ++ ['j', 's', 'o', 'n'] := by decide
  rw [hfj, List.append_assoc]
  cases hb : (fence3 ++ ['j', 's', 'o', 'n']).isPrefixOf (fence3 ++ (jd ++ fence3)) with
  | false => rfl
  | true =>
    exfalso
    rw [List.isPrefixOf_iff_prefix, List.prefix_append_right_inj] at hb
    obtain ⟨r, hr⟩ := hb
    cases hjd : jd with
    | nil =>
      rw [hjd] at hr
      have hbj : btickC = 'j' := by
        have h2 := congrArg List.head? hr
        exact (by simpa [fence3_eq] using h2 : 'j' = btickC).symm
      exact absurd hbj (by decide)
    | cons c0 s =>
      rw [hjd] at hr
      have hc0 : c0 = 'j' := by
        have h2 := congrArg List.head? hr
        exact (by simpa using h2 : 'j' = c0).symm
      have hclass := loads_head_class h (c := c0) (by rw [hjd]; rfl)
      rcases hclass with hw | hv
      · exact jsonWs_ne_j hw hc0
      · exact valueStart_ne_j hv hc0

/-- The full parse stage of `refine_and_respond`: strip the raw text,
strip Markdown fences, then parse with salvage. -/
def responseStage (s : String) : ParseOut :=
  parseStage (fenceStage (pyStripL s.data))

/-- On a loadable document the stage ignores the fence branches. -/
theorem responseStage_plain {j : String} {v : JValue} (h : jsonLoads j.data = some v) :
    responseStage j = parseStage (pyStripL j.data) := by
  obtain ⟨c, t, hstrip, hvs⟩ := pyStripL_head_of_loads h
  unfold responseStage
  rw [hstrip, fenceStage_id t (valueStart_ne_btick hvs), ← hstrip]

/-- C6: for every JSON document `j`, the fence-stripping-then-parse
stage yields the same parse result on `j` wrapped in Markdown code
fences (```` ```json j ``` ```` or ```` ``` j ``` ````) as on the
unwrapped `j`: round-tripping through fence wrapping is the identity
on the parse result. -/
theorem fence_wrap_roundtrip (j : String) (v : JValue) (h : jsonLoads j.data = some v) :
    responseStage ("```json" ++ j ++ "```") = responseStage j ∧
    responseStage ("```" ++ j ++ "```") = responseStage j := by
  have hun : responseStage j = parseStage (pyStripL j.data) := responseStage_plain h
  constructor
  · unfold responseStage
    have hdata : ("```json" ++ j ++ "```").data = fenceJson ++ j.data ++ fence3 := by
      simp [String.data_append, fenceJson, fence3]
    rw [hdata, pyStripL_wrap_id fenceJson j.data (by decide) (by decide)]
    unfold fenceStage
    rw [if_pos ⟨startsWith_wrap1 j.data, endsWith_fence3 (fenceJson ++ j.data)⟩]
    rw [slice_wrap1]
    exact hun.symm
  · unfold responseStage
    have hdata : ("```" ++ j ++ "```").data = fence3 ++ j.data ++ fence3 := by
      simp [String.data_append, fence3]
    rw [hdata, pyStripL_wrap_id fence3 j.data (by decide) (by decide)]
    unfold fenceStage
    rw [if_neg, if_pos ⟨startsWith_wrap2 j.data, endsWith_fence3 (fence3 ++ j.data)⟩]
    · rw [slice_wrap2]
      exact hun.symm
    · intro hand
      rw [wrap2_not_fenceJson h] at hand
      exact absurd hand.1 (by simp)

/-- Witness for C6 at the concrete document `\x7b"a":1\x7d`. -/
theorem fence_wrap_roundtrip_witness :
    jsonLoads ("\x7b\"a\":1\x7d" : String).data
        = some (JValue.obj [("a".data, JValue.num "1".data)]) ∧
      (responseStage ("```json" ++ "\x7b\"a\":1\x7d" ++ "```")
          = responseStage "\x7b\"a\":1\x7d" ∧
        responseStage ("```" ++ "\x7b\"a\":1\x7d" ++ "```")
          = responseStage "\x7b\"a\":1\x7d") :=
  ⟨rfl, fence_wrap_roundtrip "\x7b\"a\":1\x7d" (JValue.obj [("a".data, JValue.num "1".data)]) rfl⟩

/-- C3: re-classification validation passes exactly when the expected
emotion is `neutral` and the reply's primary emotion lies in the fixed
permissive set `\x7bneutral, happy, surprised, curious\x7d`, or the
reply's primary emotion equals the expected emotion; every other
combination fails. -/
theorem validate_response_characterisation
    (reclassify : List Char → Option String) (resp : List Char)
    (expected primary : String) (h : reclassify resp = some primary) :
    (validate_response reclassify resp expected).1 = true ↔
      (expected = "neutral" ∧ primary ∈ permissiveEmotions) ∨ primary = expected := by
  unfold validate_response
  rw [h]
  simp only []
  split_ifs with h1 h2
  · simp only [true_iff]
    exact Or.inl ⟨h1.1, List.elem_iff.mp h1.2⟩
  · simp only [true_iff]
    exact Or.inr h2
  · simp only [false_iff]
    rintro (⟨he, hm⟩ | heq)
    · exact h1 ⟨he, List.elem_iff.mpr hm⟩
    · exact h2 heq

/-- Witness for C3: expected `neutral` with a reply re-classified as
`happy` passes; the permissive-set rule applies. -/
theorem validate_response_characterisation_witness :
    (validate_response (fun _ => some "happy") "ok".data "neutral").1 = true ↔
      ("neutral" = "neutral" ∧ "happy" ∈ permissiveEmotions) ∨ "happy" = "neutral" :=
  validate_response_characterisation (fun _ => some "happy") "ok".data "neutral" "happy" rfl

/-- Counterexample for C9: with the internal re-classification
raising (oracle `none`), the validator does not return failure — its
result is `true`, not `false`. -/
theorem validate_response_error_cex :
    ¬ ((validate_response (fun _ => none) "grr".data "angry").1 = false) := by
  decide

/-- C9 (amended): when the internal re-classification raises, the
validator logs the error and returns success — accepting the
candidate reply without a retry — and no exception reaches the
caller (the model is a total function). -/
theorem validate_response_error_accepts
    (reclassify : List Char → Option String) (resp : List Char) (expected : String)
    (h : reclassify resp = none) :
    validate_response reclassify resp expected = (true, [.validationError]) := by
  unfold validate_response
  rw [h]

/-- Witness for C9 at a concrete failing re-classification. -/
theorem validate_response_error_accepts_witness :
    validate_response (fun _ => none) "x".data "sad" = (true, [.validationError]) :=
  validate_response_error_accepts (fun _ => none) "x".data "sad" rfl

/-- C5: the prompt builder is a pure function (a Lean function of its
three arguments); its output contains the current message text
verbatim, and when the conversation context is empty it contains the
literal sentinel `No prior conversation.`. -/
theorem create_dynamic_prompt_properties (a : EmotionAnalysisResult)
    (t : String) (c : List String) :
    (∃ pre post, create_dynamic_prompt a t c = pre ++ t ++ post) ∧
      (c = [] → ∃ pre post, create_dynamic_prompt a t c = pre ++ noPriorSentinel ++ post) := by
  constructor
  · refine ⟨promptRole ++ a.primary_emotion ++ " (intensity: " ++ a.intensityRepr
      ++ "/10). Secondary emotions: "
      ++ String.intercalate ", "
          (a.secondary_emotions.map (fun e => e.label ++ " (" ++ e.scoreRepr ++ ")"))
      ++ ".\n**Context:** "
      ++ (if c.isEmpty then noPriorSentinel
          else String.intercalate " " (c.drop (c.length - 3)))
      ++ "\n**Current Message:** ", promptInstructions, ?_⟩
    simp only [create_dynamic_prompt, String.append_assoc]
  · intro hc
    subst hc
    refine ⟨promptRole ++ a.primary_emotion ++ " (intensity: " ++ a.intensityRepr
      ++ "/10). Secondary emotions: "
      ++ String.intercalate ", "
          (a.secondary_emotions.map (fun e => e.label ++ " (" ++ e.scoreRepr ++ ")"))
      ++ ".\n**Context:** ",
      "\n**Current Message:** " ++ t ++ promptInstructions, ?_⟩
    simp only [create_dynamic_prompt, List.isEmpty_nil, if_true, String.append_assoc]

/-- Witness for C5 on an empty context: the sentinel appears. -/
theorem create_dynamic_prompt_properties_witness :
    ∃ pre post,
      create_dynamic_prompt ⟨"sad", "8", []⟩ "hello" [] = pre ++ noPriorSentinel ++ post :=
  (create_dynamic_prompt_properties ⟨"sad", "8", []⟩ "hello" []).2 rfl

/-- Trimming is idempotent. -/
theorem jsTrim_idem (s : String) : jsTrim (jsTrim s) = jsTrim s := by
  unfold jsTrim
  rw [show (String.mk (pyStripL s.data)).data = pyStripL s.data from rfl, pyStripL_idem]

/-- C10: a submit with empty trimmed input or with a request already
in flight issues no HTTP request and leaves the state (messages,
input, loading flag, error) unchanged; and every issued `POST /chat`
body carries a non-empty trimmed message. -/
theorem handleSubmit_frame :
    (∀ (s : ChatState) (now : Nat),
        jsTrim s.inputValue = "" ∨ s.isLoading = true → handleSubmit s now = (s, none)) ∧
      (∀ (s : ChatState) (now : Nat) (r : ChatRequest),
        (handleSubmit s now).2 = some r →
          r.message ≠ "" ∧ jsTrim r.message = r.message) := by
  constructor
  · intro s now h
    unfold handleSubmit
    dsimp only
    split
    · rfl
    · next hf => exact absurd h hf
  · intro s now r h
    unfold handleSubmit at h
    dsimp only at h
    split at h
    · simp at h
    · next hf =>
      have hr : r = { message := jsTrim s.inputValue } := by
        simpa using h.symm
      subst hr
      refine ⟨fun he => hf (Or.inl he), jsTrim_idem s.inputValue⟩

/-- Witness for C10: an all-whitespace input is a no-op, and a real
submission carries its trimmed text. -/
theorem handleSubmit_frame_witness :
    handleSubmit ⟨[], "  ", false, none⟩ 5 = (⟨[], "  ", false, none⟩, none) ∧
      (" hi ".data = " hi ".data →
        (handleSubmit ⟨[], " hi ", false, none⟩ 7).2 = some { message := "hi" } →
          ({ message := "hi" } : ChatRequest).message ≠ "" ∧
            jsTrim ({ message := "hi" } : ChatRequest).message
              = ({ message := "hi" } : ChatRequest).message) :=
  ⟨handleSubmit_frame.1 ⟨[], "  ", false, none⟩ 5 (Or.inl rfl),
   fun _ h => handleSubmit_frame.2 ⟨[], " hi ", false, none⟩ 7 { message := "hi" } h⟩

/-- C7 (amended): the salvage pass re-parses the substring from the
first `\x7b` to the last `\x7d`; when one of the braces is absent the
result is the empty object; a successful re-parse yields its value;
and on the concrete input `noise \x7b"response":"hi"\x7d trailing` the
stage yields `\x7b"response":"hi"\x7d`. -/
theorem salvage_pass_spec :
    responseStage "noise \x7b\"response\":\"hi\"\x7d trailing"
        = .ok (.obj [(respKey, .str "hi".data)]) ∧
      (∀ raw : List Char, jsonLoads raw = none →
        ¬ (0 ≤ pyFind raw lbraceC ∧ 0 ≤ pyRFind raw rbraceC) →
        parseStage raw = .ok (.obj [])) ∧
      (∀ (raw : List Char) (v : JValue), jsonLoads raw = none →
        0 ≤ pyFind raw lbraceC → 0 ≤ pyRFind raw rbraceC →
        jsonLoads (pySlice raw (pyFind raw lbraceC) (pyRFind raw rbraceC + 1)) = some v →
        parseStage raw = .ok v) := by
  refine ⟨rfl, ?_, ?_⟩
  · intro raw h hbr
    unfold parseStage
    rw [h, if_neg hbr]
  · intro raw v h hs he hsal
    unfold parseStage
    rw [h, if_pos ⟨hs, he⟩, hsal]

/-- Witness for C7: a brace-free failing input gives the empty
object, and the noisy document salvages to its embedded object. -/
theorem salvage_pass_spec_witness :
    parseStage "a".data = .ok (.obj []) ∧
      parseStage "noise \x7b\"response\":\"hi\"\x7d trailing".data
        = .ok (.obj [(respKey, .str "hi".data)]) :=
  ⟨salvage_pass_spec.2.1 "a".data rfl (by decide),
   salvage_pass_spec.2.2 "noise \x7b\"response\":\"hi\"\x7d trailing".data
     (.obj [(respKey, .str "hi".data)]) rfl (by decide) (by decide) rfl⟩

/-- Counterexample for C7: when both braces are present but the
salvage re-parse also fails, the stage raises (the error escapes to
the attempt handler) instead of producing the empty object. -/
theorem salvage_pass_cex :
    responseStage "x \x7b bad \x7d y" = .raised ∧
      ParseOut.raised ≠ ParseOut.ok (JValue.obj []) :=
  ⟨rfl, fun h => ParseOut.noConfusion h⟩

/-- C8: a parsed object without a `response` member (the empty object
from a failed salvage included) is replaced by the fixed fallback
reply — appraisal `Challenge`, empty regulation, the canned Charlotte
greeting — and the substitution returns normally rather than raising
for that attempt. -/
theorem missing_response_fallback (fs : List (List Char × JValue))
    (h : fs.any (fun kv => kv.1 = respKey) = false) :
    substStep (.obj fs) = .ok fallbackData ∧
      fallbackData = .obj [("appraisal".data, .str "Challenge".data),
        ("regulation".data, .arr []), (respKey, .str charlotteMind)] := by
  refine ⟨?_, rfl⟩
  cases fs with
  | nil => rfl
  | cons a t => simp [substStep, pyTruthy, pyContainsKey, h]

/-- Witness for C8 at the empty object. -/
theorem missing_response_fallback_witness :
    substStep (.obj []) = .ok fallbackData ∧
      fallbackData = .obj [("appraisal".data, .str "Challenge".data),
        ("regulation".data, .arr []), (respKey, .str charlotteMind)] :=
  missing_response_fallback [] rfl

/-- The loop never performs more attempts than its remaining
budget. -/
theorem refineLoopFrom_attempts_le (env : RefineEnv) (expected : String) :
    ∀ (r k : Nat), (refineLoopFrom env expected k r).2.1 ≤ r := by
  intro r
  induction r with
  | zero => intro k; simp [refineLoopFrom]
  | succ n ih =>
    intro k
    unfold refineLoopFrom
    cases stepRun env expected k with
    | pass d => simp
    | failv => simpa using Nat.add_le_add_right (ih (k + 1)) 1
    | exc =>
      by_cases hn : n = 0
      · simp [hn]
      · simpa [hn] using Nat.add_le_add_right (ih (k + 1)) 1

/-- If the `m` attempts starting at `k` do not pass (validation
failure or non-final exception) and attempt `k + m` passes within the
remaining budget, the loop returns that attempt's reply after exactly
`m + 1` attempts — the remaining budget is never consulted. -/
theorem refineLoopFrom_first_pass (env : RefineEnv) (expected : String) :
    ∀ (m k r : Nat) (d : JValue), m < r →
      (∀ i, i < m →
        stepRun env expected (k + i) = .failv ∨ stepRun env expected (k + i) = .exc) →
      stepRun env expected (k + m) = .pass d →
      (refineLoopFrom env expected k r).1 = .success d ∧
        (refineLoopFrom env expected k r).2.1 = m + 1 := by
  intro m
  induction m with
  | zero =>
    intro k r d hr hnp hp
    cases r with
    | zero => omega
    | succ n =>
      rw [Nat.add_zero] at hp
      unfold refineLoopFrom
      rw [hp]
      exact ⟨rfl, rfl⟩
  | succ m ih =>
    intro k r d hr hnp hp
    cases r with
    | zero => omega
    | succ n =>
      have hn : ¬ n = 0 := by omega
      have h0 := hnp 0 (Nat.succ_pos m)
      rw [Nat.add_zero] at h0
      have hshift : ∀ i, i < m →
          stepRun env expected (k + 1 + i) = .failv ∨
            stepRun env expected (k + 1 + i) = .exc := by
        intro i hi
        have hx := hnp (i + 1) (by omega)
        rwa [show k + (i + 1) = k + 1 + i by omega] at hx
      have hp' : stepRun env expected (k + 1 + m) = .pass d := by
        rwa [show k + (m + 1) = k + 1 + m by omega] at hp
      have hrec := ih (k + 1) n d (by omega) hshift hp'
      unfold refineLoopFrom
      rcases h0 with h0 | h0
      · rw [h0]
        dsimp only
        exact ⟨hrec.1, by rw [hrec.2]⟩
      · rw [h0, if_neg hn]
        dsimp only
        exact ⟨hrec.1, by rw [hrec.2]⟩

/-- C4: the validation loop performs at most the configured ceiling
of 3 attempts, and returns immediately — short-circuiting the
remaining attempts — on the first attempt whose reply passes
validation, whichever attempt that is. -/
theorem refine_attempt_bound :
    (∀ (env : RefineEnv) (expected : String),
        (refine_and_respond env expected).2.1 ≤ maxAttempts) ∧
      (∀ (env : RefineEnv) (expected : String) (k : Nat) (d : JValue),
        1 ≤ k → k ≤ maxAttempts →
        (∀ i, 1 ≤ i → i < k →
          stepRun env expected i = .failv ∨ stepRun env expected i = .exc) →
        stepRun env expected k = .pass d →
        (refine_and_respond env expected).1 = .success d ∧
          (refine_and_respond env expected).2.1 = k) := by
  have hma : maxAttempts = 3 := rfl
  constructor
  · intro env expected
    exact refineLoopFrom_attempts_le env expected maxAttempts 1
  · intro env expected k d hk1 hk3 hnp hp
    have hnp' : ∀ i, i < k - 1 →
        stepRun env expected (1 + i) = .failv ∨ stepRun env expected (1 + i) = .exc := by
      intro i hi
      have hx := hnp (i + 1) (by omega) (by omega)
      rwa [show i + 1 = 1 + i by omega] at hx
    have hp' : stepRun env expected (1 + (k - 1)) = .pass d := by
      rwa [show 1 + (k - 1) = k by omega]
    have h := refineLoopFrom_first_pass env expected (k - 1) 1 maxAttempts d
      (by omega) hnp' hp'
    constructor
    · show (refineLoopFrom env expected 1 maxAttempts).1 = RefineOut.success d
      exact h.1
    · show (refineLoopFrom env expected 1 maxAttempts).2.1 = k
      rw [h.2]
      omega

/-- An environment whose first attempt fails validation and whose
second attempt passes. -/
def envPassSecond : RefineEnv :=
  ⟨fun k =>
    if k = 1 then some "\x7b\"response\":\"R1\"\x7d"
    else some "\x7b\"response\":\"ok2\"\x7d",
   fun s => if s = "R1".data then some "happy" else some "angry"⟩

/-- Witness for C4: after a misaligned first attempt, the loop
returns the second attempt's reply at exactly two attempts, within
the ceiling. -/
theorem refine_attempt_bound_witness :
    (refine_and_respond envPassSecond "angry").2.1 ≤ maxAttempts ∧
      ((refine_and_respond envPassSecond "angry").1
          = .success (JValue.obj [(respKey, JValue.str "ok2".data)]) ∧
        (refine_and_respond envPassSecond "angry").2.1 = 2) :=
  ⟨refine_attempt_bound.1 envPassSecond "angry",
   refine_attempt_bound.2 envPassSecond "angry" 2
     (JValue.obj [(respKey, JValue.str "ok2".data)])
     (by decide) (by decide)
     (fun i h1 h2 => by
        have hi : i = 1 := by omega
        subst hi
        exact Or.inl rfl)
     rfl⟩

/-- The `response` text of a reply dict, used to tell replies
apart. -/
def respTextOf : JValue → Option (List Char)
  | .obj fs =>
    match fs.reverse.find? (fun kv => kv.1 = respKey) with
    | some kv => match kv.2 with | .str s => some s | _ => none
    | none => none
  | _ => none

/-- An environment whose three attempts produce distinct well-formed
candidates that all fail emotional validation. -/
def cexEnvExhaust : RefineEnv :=
  ⟨fun k =>
    if k = 1 then some "\x7b\"response\":\"R1\"\x7d"
    else if k = 2 then some "\x7b\"response\":\"R2\"\x7d"
    else some "\x7b\"response\":\"R3\"\x7d",
   fun _ => some "happy"⟩

/-- Counterexample for C1: when every attempt fails validation, the
loop returns the fixed fallback reply, not the last-produced
candidate (here `R3`). -/
theorem refine_exhaustion_cex :
    (refine_and_respond cexEnvExhaust "angry").1 = .success fallbackData ∧
      ¬ ((refine_and_respond cexEnvExhaust "angry").1
          = .success (JValue.obj [(respKey, JValue.str "R3".data)])) := by
  constructor
  · rfl
  · intro h
    have h1 : (refine_and_respond cexEnvExhaust "angry").1 = .success fallbackData := rfl
    rw [h1] at h
    injection h with he
    exact absurd (congrArg respTextOf he) (by decide)

/-- C1 (amended): when the validation loop exhausts all attempts
without any candidate passing, it logs the degradation and returns the
fixed fallback reply — degrading gracefully instead of failing the
request — rather than the final attempt's candidate. -/
theorem refine_exhaustion_fallback (env : RefineEnv) (expected : String)
    (h1 : stepRun env expected 1 = .failv)
    (h2 : stepRun env expected 2 = .failv)
    (h3 : stepRun env expected 3 = .failv) :
    refine_and_respond env expected
      = (.success fallbackData, 3,
          [.validationRetry, .validationRetry, .validationRetry, .maxAttemptsReached]) := by
  simp [refine_and_respond, maxAttempts, refineLoopFrom, h1, h2, h3]

/-- Witness for C1 at the three-misaligned-candidates environment. -/
theorem refine_exhaustion_fallback_witness :
    refine_and_respond cexEnvExhaust "angry"
      = (.success fallbackData, 3,
          [.validationRetry, .validationRetry, .validationRetry, .maxAttemptsReached]) :=
  refine_exhaustion_fallback cexEnvExhaust "angry" rfl rfl rfl

/-- When the API fails on every attempt, one run of the loop retries
through all attempts and re-raises from the final one. -/
theorem refine_api_fail (env : RefineEnv) (expected : String)
    (h : ∀ k, env.api k = none) :
    refine_and_respond env expected
      = (.raise, maxAttempts, [.llmCallFailed, .llmCallFailed, .llmCallFailed]) := by
  have hs : ∀ k, stepRun env expected k = .exc := by
    intro k
    unfold stepRun
    rw [h k]
  simp [refine_and_respond, maxAttempts, refineLoopFrom, hs]

/-- An environment in which the generation API fails always. -/
def envsAllFail : Nat → RefineEnv := fun _ => ⟨fun _ => none, fun _ => none⟩

/-- Counterexample for C2: with the API failing on every attempt of
every try, the generator loop does raise, but
`generate_emotional_response` converts the propagated error into the
canned Charlotte reply — the request does not fail. -/
theorem api_failure_canned_cex :
    (refine_and_respond (envsAllFail 1) "sad").1 = .raise ∧
      generate_emotional_response envsAllFail "sad" = .str charlotteGoingOn := by
  exact ⟨rfl, rfl⟩

/-- C2 (amended): an all-attempts API failure is retried up to the
loop ceiling, the error propagates out of `refine_and_respond` (and
out of its spec-modelled `retry_async` wrapper), and
`generate_emotional_response` then catches it and returns the canned
reply, so the request is not failed. -/
theorem api_failure_not_fatal (envs : Nat → RefineEnv) (expected : String)
    (h : ∀ t k, (envs t).api k = none) :
    (∀ t, refine_and_respond (envs t) expected
        = (.raise, maxAttempts, [.llmCallFailed, .llmCallFailed, .llmCallFailed])) ∧
      generate_emotional_response envs expected = .str charlotteGoingOn := by
  have h1 : ∀ t, refine_and_respond (envs t) expected
      = (.raise, maxAttempts, [.llmCallFailed, .llmCallFailed, .llmCallFailed]) :=
    fun t => refine_api_fail (envs t) expected (h t)
  have hr : ∀ t, (refine_and_respond (envs t) expected).1 = .raise := by
    intro t
    rw [h1 t]
  exact ⟨h1, by simp [generate_emotional_response, retryAsyncFrom, retryTimes, hr]⟩

/-- Witness for C2 at the always-failing environment. -/
theorem api_failure_not_fatal_witness :
    (∀ t, refine_and_respond (envsAllFail t) "sad"
        = (.raise, maxAttempts, [.llmCallFailed, .llmCallFailed, .llmCallFailed])) ∧
      generate_emotional_response envsAllFail "sad" = .str charlotteGoingOn :=
  api_failure_not_fatal envsAllFail "sad" (fun _ _ => rfl)
